import Mathlib

/-!
# Verification of the offline-first attendance kiosk

Shallow embedding of the kiosk client's local-cache sync and scan-validation
engine (`src/unnamed/part_001`, the Dexie-based `App.jsx`; the descriptor-merge
variant of `downloadDataToLocal` from `src/unnamed/part_003`) and of the
hardware connection manager (`src/kiosk-server/index.js`).

Modelling conventions:
* Dexie tables become Lean lists; the auto-increment primary key `++local_id`
  of the `logs` table becomes an explicit `nextLogId` counter.
* JavaScript strings are Lean `String`s; JS relational comparison of strings
  (lexicographic by code unit) is `strLt` below; `trim`, `toLowerCase`,
  `substring(0,5)` and `split(',')` are embedded as executable helpers.
* The wall clock (`Date.now()`, `new Date()`) enters as an environment record
  whose fields (`nowTs`, `currentTime`, `currentDay`, `today`, `nowIso`) stand
  for the values the code derives from `new Date()` at the start of a scan.
* Remote calls (supabase) are modelled by their observable outcome: a fetch
  either throws (caught by the surrounding `try`) or returns `{ data }` per
  collection; an upsert response carries its `error` flag and, for the sake of
  stating the partial-batch claim, the set of row keys the response confirms
  (the source reads only `error`).
* Scan tokens, timers and sync triggers are serialized (single-writer
  discipline, spec section 5), so every operation is a pure state transformer
  and reachable states are generated by a step relation.
-/

namespace Kiosk

/-! ## JavaScript string primitives -/

/-- Whitespace as removed by `String.prototype.trim` (ASCII fragment). -/
def isWsChar (c : Char) : Bool :=
  c = ' ' || c = '\t' || c = '\n' || c = '\r'

/-- `uid.toString().trim()` : strip leading and trailing whitespace. -/
def jsTrim (s : String) : String :=
  ⟨((s.data.dropWhile isWsChar).reverse.dropWhile isWsChar).reverse⟩

/-- `s.toLowerCase()` (ASCII fragment). -/
def lowerStr (s : String) : String :=
  ⟨s.data.map Char.toLower⟩

/-- `s.substring(0, 5)` : seconds are truncated from `"HH:MM:SS"`. -/
def take5 (s : String) : String :=
  ⟨s.data.take 5⟩

/-- Lexicographic `<` on code sequences, as JS compares strings. -/
def codesLt : List Nat → List Nat → Bool
  | [], [] => false
  | [], _ :: _ => true
  | _ :: _, [] => false
  | a :: as, b :: bs => a < b || (a = b && codesLt as bs)

/-- JS `a < b` on strings (code-unit lexicographic). `a >= b` is `!(a < b)`. -/
def strLt (a b : String) : Bool :=
  codesLt (a.data.map Char.toNat) (b.data.map Char.toNat)

/-- `s.split(',')` on the underlying character list. -/
def splitCommaAux : List Char → List Char → List (List Char)
  | [], acc => [acc.reverse]
  | c :: cs, acc =>
    if c = ',' then acc.reverse :: splitCommaAux cs [] else splitCommaAux cs (c :: acc)

/-- `s.split(',')`. -/
def splitComma (s : String) : List String :=
  (splitCommaAux s.data []).map String.mk

/-! ## Data model (`src/kiosk-client/src/db.js`, version with `descriptor`) -/

/-- `sync_status` of a local attendance log row. -/
inductive SyncStatus where
  | pending
  | synced
deriving DecidableEq, Repr

/-- A row of the `students` table. The biometric `descriptor` is an opaque
blob; it is modelled as a `Nat` tag, `none` standing for JS `null`. -/
structure Student where
  id : Nat
  student_id : String
  rfid_uid : String
  full_name : String
  enrolled_subjects : String
  face_image_url : String
  descriptor : Option Nat
deriving DecidableEq, Repr

/-- A row of the `schedules` table. `days` is `none` when the column is null
(the code guards `if (!s.days || ...)`). -/
structure Schedule where
  id : Nat
  subject_code : String
  subject_name : String
  time_start : String
  time_end : String
  days : Option (List String)
  kiosk_id : Nat
deriving DecidableEq, Repr

/-- A row of the `logs` table. -/
structure LogEntry where
  local_id : Nat
  student_id : String
  student_name : String
  subject_code : String
  kiosk_id : Nat
  date : String
  timestamp : String
  status : String
  sync_status : SyncStatus
deriving DecidableEq, Repr

/-- The Dexie database: three tables plus the auto-increment counter that
backs `++local_id` (Dexie never reuses keys after a delete). -/
structure Cache where
  students : List Student
  schedules : List Schedule
  logs : List LogEntry
  nextLogId : Nat
deriving DecidableEq, Repr

/-- `lastScannedRef.current` : the rate-limit reference. -/
structure LastScan where
  uid : String
  time : Int
deriving DecidableEq, Repr

/-- The kiosk client's mutable state relevant to the claims. -/
structure SysState where
  cache : Cache
  lastScanned : LastScan
deriving DecidableEq, Repr

/-- The values the code derives from the wall clock and the session at the
start of one scan or sync cycle. -/
structure Env where
  nowTs : Int
  nowIso : String
  currentTime : String
  currentDay : String
  today : String
  deviceId : Nat
deriving DecidableEq, Repr

/-! ## Dexie primitives -/

/-- `bulkPut`: put each record in order; a record whose key already exists
replaces the stored row, otherwise it is appended. -/
def putKeyed {α : Type} (key : α → Nat) (hs : List α) (x : α) : List α :=
  if hs.any (fun h => key h = key x) then
    hs.map (fun h => if key h = key x then x else h)
  else hs ++ [x]

/-- `table.bulkPut(records)` starting from contents `hs`. -/
def bulkPut {α : Type} (key : α → Nat) (hs : List α) (xs : List α) : List α :=
  xs.foldl (putKeyed key) hs

/-! ## Sync engine (`part_001` section 3) -/

/-- `db.logs.where('date').notEqual(today).delete()` : executed once in
`init`, before any scan is processed. -/
def cleanupDailyLogs (today : String) (c : Cache) : Cache :=
  { c with logs := c.logs.filter (fun l => l.date = today) }

/-- Observable outcome of the pair of supabase `select('*')` calls inside
`downloadDataToLocal`: the call chain either throws (network exception,
caught by the enclosing `try`) or resolves with a `data` field per
collection (`none` models `data: null`, the error result). -/
inductive FetchOutcome where
  | threw
  | returned (stdData : Option (List Student)) (schData : Option (List Schedule))
deriving DecidableEq, Repr

/-- `downloadDataToLocal` as written in `part_001`: clear both tables inside
one transaction, then `bulkPut` whichever fetched arrays are non-empty.
Note the clear is not conditioned on the fetch having produced data. -/
def downloadDataToLocal (online : Bool) (fetch : FetchOutcome) (c : Cache) : Cache :=
  if !online then c
  else
    match fetch with
    | .threw => c
    | .returned stdData schData =>
      let c1 : Cache := { c with students := [], schedules := [] }
      let c2 : Cache :=
        match stdData with
        | some std =>
          if std.length > 0 then { c1 with students := bulkPut (fun s => s.id) [] std } else c1
        | none => c1
      match schData with
      | some sch =>
        if sch.length > 0 then { c2 with schedules := bulkPut (fun s => s.id) [] sch } else c2
      | none => c2

/-- One iteration of building the `descriptorMap` of `part_003`:
`if (s.descriptor) descriptorMap[s.student_id] = s.descriptor` (a later record
with the same `student_id` overwrites an earlier one, like JS assignment). -/
def descriptorStep (sid : String) (acc : Option Nat) (s : Student) : Option Nat :=
  match s.descriptor with
  | some d => if s.student_id = sid then some d else acc
  | none => acc

/-- `descriptorMap[sid]` after iterating all cached students. -/
def descriptorFor (students : List Student) (sid : String) : Option Nat :=
  students.foldl (descriptorStep sid) none

/-- One entry of `mergedStudents`: the remote record with the locally cached
descriptor carried over by `student_id` (JS `{...s, descriptor: ...}`). -/
def mergeStudent (existing : List Student) (s : Student) : Student :=
  { s with descriptor := descriptorFor existing s.student_id }

/-- `downloadDataToLocal` as written in `part_003`: same clear-and-reinsert
transaction, but the fetched students are first merged with the locally
cached face descriptors. When `stdData` is `null` the expression
`stdData.map(...)` throws, so the `catch` leaves the cache untouched. -/
def downloadDataToLocalMerge (online : Bool) (fetch : FetchOutcome) (c : Cache) : Cache :=
  if !online then c
  else
    match fetch with
    | .threw => c
    | .returned stdData schData =>
      match stdData with
      | none => c
      | some std =>
        let mergedStudents := std.map (mergeStudent c.students)
        let c1 : Cache := { c with students := [], schedules := [] }
        let c2 : Cache :=
          if mergedStudents.length > 0 then
            { c1 with students := bulkPut (fun s => s.id) [] mergedStudents }
          else c1
        match schData with
        | some sch =>
          if sch.length > 0 then { c2 with schedules := bulkPut (fun s => s.id) [] sch } else c2
        | none => c2

/-- The observable part of the supabase `upsert` response. The source reads
only `error`; `confirmed` records which row keys the response actually
confirms, so that the partial-batch claim can be stated against the code. -/
structure UpsertResponse where
  error : Bool
  confirmed : List Nat
deriving DecidableEq, Repr

/-- One step of `bulkUpdate(ids.map(id => ({key: id, changes: {sync_status:
'synced'}})))` : flip the rows whose key is listed. -/
def flipListed (ids : List Nat) (l : LogEntry) : LogEntry :=
  if l.local_id ∈ ids then { l with sync_status := .synced } else l

/-- `uploadLogs`: select the pending rows, upsert them remotely (the payload
strips `local_id` and presets `sync_status` — remote-only, not modelled), and
on a non-error response flip the selected rows to `synced`. An error or a
thrown exception leaves the cache untouched. -/
def uploadLogs (online : Bool) (resp : UpsertResponse) (c : Cache) : Cache :=
  if !online then c
  else
    let pendingLogs := c.logs.filter (fun l => l.sync_status = SyncStatus.pending)
    if pendingLogs.isEmpty then c
    else if resp.error then c
    else
      let ids := pendingLogs.map (fun l => l.local_id)
      { c with logs := c.logs.map (flipListed ids) }

/-! ## Attendance validator (`part_001` section 4) -/

/-- Terminal outcome of one scan, as surfaced to the UI collaborator. -/
inductive ScanResult where
  | discarded
  | notRegistered
  | noActiveClass (currentTime : String)
  | notEnrolled (subjectName : String)
  | alreadyPresent (timestamp : String)
  | accepted (fullName subjectName : String)
deriving DecidableEq, Repr

/-- Identity lookup: exact `rfid_uid` match first, then the case-insensitive
fallback `filter(s => s.rfid_uid && s.rfid_uid.toLowerCase() === ...)`. -/
def findStudent (students : List Student) (cleanUid : String) : Option Student :=
  match students.find? (fun s => s.rfid_uid = cleanUid) with
  | some s => some s
  | none =>
    students.find? (fun s => s.rfid_uid ≠ "" && lowerStr s.rfid_uid = lowerStr cleanUid)

/-- The schedule predicate of `allSchedules.find(...)`: the day list contains
the weekday abbreviation and `currentTime >= start && currentTime <= end`
after truncating seconds. -/
def scheduleActive (currentDay currentTime : String) (s : Schedule) : Bool :=
  (match s.days with
   | none => false
   | some ds => ds.contains currentDay) &&
  !(strLt currentTime (take5 s.time_start)) &&
  !(strLt (take5 s.time_end) currentTime)

/-- Enrollment: split `enrolled_subjects` on commas (a falsy/empty value means
no enrollments) and compare each trimmed code. -/
def isEnrolled (stu : Student) (code : String) : Bool :=
  (if stu.enrolled_subjects = "" then [] else splitComma stu.enrolled_subjects).any
    (fun s => jsTrim s = code)

/-- Duplicate check: `db.logs.where({student_id, subject_code, date}).first()`. -/
def findLog (logs : List LogEntry) (sid code date : String) : Option LogEntry :=
  logs.find? (fun l => l.student_id = sid && l.subject_code = code && l.date = date)

/-- The row inserted by the Commit step (`db.logs.add({...})`). -/
def mkLog (env : Env) (c : Cache) (stu : Student) (ac : Schedule) : LogEntry :=
  { local_id := c.nextLogId
    student_id := stu.student_id
    student_name := stu.full_name
    subject_code := ac.subject_code
    kiosk_id := env.deviceId
    date := env.today
    timestamp := env.nowIso
    status := "present"
    sync_status := .pending }

/-- `processAttendance(uid)` : the per-scan pipeline
RateLimit → IdentityLookup → ScheduleMatch → EnrollmentCheck →
DuplicateCheck → Commit. The trailing `uploadLogs()` trigger is the separate
Push step of the system relation below. -/
def processAttendance (env : Env) (st : SysState) (uid : String) :
    ScanResult × SysState :=
  let cleanUid := jsTrim uid
  if st.lastScanned.uid = cleanUid ∧ env.nowTs - st.lastScanned.time < 5000 then
    (.discarded, st)
  else
    let st1 : SysState := { st with lastScanned := ⟨cleanUid, env.nowTs⟩ }
    match findStudent st1.cache.students cleanUid with
    | none => (.notRegistered, st1)
    | some student =>
      let allSchedules := st1.cache.schedules.filter (fun s => s.kiosk_id = env.deviceId)
      match allSchedules.find? (scheduleActive env.currentDay env.currentTime) with
      | none => (.noActiveClass env.currentTime, st1)
      | some activeClass =>
        if !(isEnrolled student activeClass.subject_code) then
          (.notEnrolled activeClass.subject_name, st1)
        else
          match findLog st1.cache.logs student.student_id activeClass.subject_code env.today with
          | some existingLog => (.alreadyPresent existingLog.timestamp, st1)
          | none =>
            (.accepted student.full_name activeClass.subject_name,
             { st1 with
                cache := { st1.cache with
                            logs := st1.cache.logs ++ [mkLog env st1.cache student activeClass]
                            nextLogId := st1.cache.nextLogId + 1 } })

/-! ## System step relation -/

/-- One serialized operation of the kiosk client. -/
inductive Step : SysState → SysState → Prop
  | scan (env : Env) (uid : String) (s : SysState) :
      Step s (processAttendance env s uid).2
  | push (online : Bool) (resp : UpsertResponse) (s : SysState) :
      Step s ⟨uploadLogs online resp s.cache, s.lastScanned⟩
  | pull (online : Bool) (fetch : FetchOutcome) (s : SysState) :
      Step s ⟨downloadDataToLocal online fetch s.cache, s.lastScanned⟩
  | pullMerge (online : Bool) (fetch : FetchOutcome) (s : SysState) :
      Step s ⟨downloadDataToLocalMerge online fetch s.cache, s.lastScanned⟩
  | dayCleanup (today : String) (s : SysState) :
      Step s ⟨cleanupDailyLogs today s.cache, s.lastScanned⟩

/-- Fresh install: empty tables, Dexie keys start at 1, no previous scan. -/
def initState : SysState := ⟨⟨[], [], [], 1⟩, ⟨"", 0⟩⟩

/-- States the client can be in after any serialized run of operations. -/
def Reachable (s : SysState) : Prop :=
  Relation.ReflTransGen Step initState s

/-! ## Structural lemmas about the operations -/

/-- A scan either leaves the cache untouched, or — when the token passed every
validation step — appends exactly the one row produced by `mkLog`, and only
after the duplicate check came back empty. -/
theorem processAttendance_cache_cases (env : Env) (s : SysState) (uid : String) :
    (processAttendance env s uid).2.cache = s.cache ∨
    ∃ stu ac,
      findStudent s.cache.students (jsTrim uid) = some stu ∧
      ac ∈ s.cache.schedules ∧ ac.kiosk_id = env.deviceId ∧
      scheduleActive env.currentDay env.currentTime ac = true ∧
      findLog s.cache.logs stu.student_id ac.subject_code env.today = none ∧
      (processAttendance env s uid).2.cache =
        { s.cache with
            logs := s.cache.logs ++ [mkLog env s.cache stu ac],
            nextLogId := s.cache.nextLogId + 1 } := by
  unfold processAttendance
  dsimp only
  split
  · exact Or.inl rfl
  · split
    · exact Or.inl rfl
    · rename_i stu hstu
      split
      · exact Or.inl rfl
      · rename_i ac hac
        have hmem := List.mem_of_find?_eq_some hac
        have hpred := List.find?_some hac
        rw [List.mem_filter] at hmem
        split
        · exact Or.inl rfl
        · split
          · exact Or.inl rfl
          · rename_i hlog
            exact Or.inr ⟨stu, ac, hstu, hmem.1, by simpa using hmem.2, hpred, hlog, rfl⟩

/-- `uploadLogs` either leaves the cache untouched (offline, nothing pending,
error, or thrown exception) or — precisely when the response has no error —
flips every row whose key was selected. -/
theorem uploadLogs_cases (online : Bool) (resp : UpsertResponse) (c : Cache) :
    uploadLogs online resp c = c ∨
    (resp.error = false ∧
     uploadLogs online resp c =
       { c with logs := c.logs.map (flipListed
           ((c.logs.filter (fun l => l.sync_status = SyncStatus.pending)).map
             (fun l => l.local_id))) }) := by
  unfold uploadLogs
  by_cases ho : (!online) = true
  · rw [if_pos ho]; exact Or.inl rfl
  · rw [if_neg ho]
    dsimp only
    by_cases hp : (c.logs.filter (fun l => l.sync_status = SyncStatus.pending)).isEmpty = true
    · rw [if_pos hp]; exact Or.inl rfl
    · rw [if_neg hp]
      by_cases he : resp.error = true
      · rw [if_pos he]; exact Or.inl rfl
      · rw [if_neg he]; exact Or.inr ⟨by simpa using he, rfl⟩

/-- Pull never touches the log table or its key counter. -/
theorem downloadDataToLocal_logs (online : Bool) (fetch : FetchOutcome) (c : Cache) :
    (downloadDataToLocal online fetch c).logs = c.logs ∧
    (downloadDataToLocal online fetch c).nextLogId = c.nextLogId := by
  unfold downloadDataToLocal
  by_cases ho : (!online) = true
  · rw [if_pos ho]; exact ⟨rfl, rfl⟩
  · rw [if_neg ho]
    cases fetch with
    | threw => exact ⟨rfl, rfl⟩
    | returned stdData schData =>
      cases stdData <;> cases schData <;> dsimp only <;> constructor <;>
        (repeat' split) <;> rfl

/-- The descriptor-merging Pull never touches the log table either. -/
theorem downloadDataToLocalMerge_logs (online : Bool) (fetch : FetchOutcome) (c : Cache) :
    (downloadDataToLocalMerge online fetch c).logs = c.logs ∧
    (downloadDataToLocalMerge online fetch c).nextLogId = c.nextLogId := by
  unfold downloadDataToLocalMerge
  by_cases ho : (!online) = true
  · rw [if_pos ho]; exact ⟨rfl, rfl⟩
  · rw [if_neg ho]
    cases fetch with
    | threw => exact ⟨rfl, rfl⟩
    | returned stdData schData =>
      cases stdData <;> cases schData <;> dsimp only <;> constructor <;>
        (repeat' split) <;> rfl

/-- The status flip changes no field that identifies a row. -/
theorem flipListed_fields (ids : List Nat) (l : LogEntry) :
    (flipListed ids l).local_id = l.local_id ∧
    (flipListed ids l).student_id = l.student_id ∧
    (flipListed ids l).subject_code = l.subject_code ∧
    (flipListed ids l).date = l.date := by
  unfold flipListed
  split <;> simp

/-! ## Log-table invariants -/

/-- Two log rows do not agree on the upsert key (externalId, courseCode, date). -/
def tripleDistinct (a b : LogEntry) : Prop :=
  ¬(a.student_id = b.student_id ∧ a.subject_code = b.subject_code ∧ a.date = b.date)

/-- The log-table invariant: keys pairwise distinct, `local_id`s distinct and
below the auto-increment counter. -/
def logsWellFormed (c : Cache) : Prop :=
  c.logs.Pairwise tripleDistinct ∧
  (c.logs.map (fun l => l.local_id)).Nodup ∧
  ∀ l ∈ c.logs, l.local_id < c.nextLogId

/-- Every serialized operation either keeps the log list, appends one fresh
pending row whose key is not yet present, flips selected pending rows to
`synced`, or filters by date. -/
theorem step_cases {s s' : SysState} (h : Step s s') :
    (s'.cache.logs = s.cache.logs ∧ s'.cache.nextLogId = s.cache.nextLogId) ∨
    (∃ nl, s'.cache.logs = s.cache.logs ++ [nl] ∧
       s'.cache.nextLogId = s.cache.nextLogId + 1 ∧
       nl.local_id = s.cache.nextLogId ∧ nl.sync_status = .pending ∧
       findLog s.cache.logs nl.student_id nl.subject_code nl.date = none) ∨
    (∃ ids, s'.cache.logs = s.cache.logs.map (flipListed ids) ∧
       s'.cache.nextLogId = s.cache.nextLogId ∧
       ∀ i ∈ ids, ∃ q ∈ s.cache.logs, q.local_id = i ∧ q.sync_status = .pending) ∨
    (∃ d, s'.cache.logs = s.cache.logs.filter (fun l => l.date = d) ∧
       s'.cache.nextLogId = s.cache.nextLogId) := by
  cases h with
  | scan env uid s =>
    rcases processAttendance_cache_cases env s uid with hc | ⟨stu, ac, _, _, _, _, hlog, hc⟩
    · exact Or.inl ⟨by rw [hc], by rw [hc]⟩
    · exact Or.inr (Or.inl ⟨mkLog env s.cache stu ac, by rw [hc], by rw [hc], rfl, rfl, hlog⟩)
  | push online resp s =>
    rcases uploadLogs_cases online resp s.cache with hc | ⟨_, hc⟩
    · exact Or.inl ⟨by rw [hc], by rw [hc]⟩
    · refine Or.inr (Or.inr (Or.inl ⟨_, by rw [hc], by rw [hc], ?_⟩))
      intro i hi
      rw [List.mem_map] at hi
      obtain ⟨q, hq, rfl⟩ := hi
      rw [List.mem_filter] at hq
      exact ⟨q, hq.1, rfl, by simpa using hq.2⟩
  | pull online fetch s =>
    exact Or.inl (downloadDataToLocal_logs online fetch s.cache)
  | pullMerge online fetch s =>
    exact Or.inl (downloadDataToLocalMerge_logs online fetch s.cache)
  | dayCleanup today s =>
    exact Or.inr (Or.inr (Or.inr ⟨today, rfl, rfl⟩))

theorem step_preserves_wf {s s' : SysState} (h : Step s s') :
    logsWellFormed s.cache → logsWellFormed s'.cache := by
  intro ⟨hpw, hnd, hbd⟩
  rcases step_cases h with ⟨hl, hn⟩ | ⟨nl, hl, hn, hid, _, hfresh⟩ |
    ⟨ids, hl, hn, _⟩ | ⟨d, hl, hn⟩
  · exact ⟨hl ▸ hpw, hl ▸ hnd, fun l hm => hn ▸ hbd l (hl ▸ hm)⟩
  · refine ⟨?_, ?_, ?_⟩
    · rw [hl, List.pairwise_append]
      refine ⟨hpw, List.pairwise_singleton _ _, ?_⟩
      intro a ha b hb
      rw [List.mem_singleton] at hb
      subst hb
      rw [findLog, List.find?_eq_none] at hfresh
      have := hfresh a ha
      simp only [Bool.and_eq_true, decide_eq_true_eq] at this
      intro ⟨h1, h2, h3⟩
      exact this ⟨⟨h1, h2⟩, h3⟩
    · rw [hl, List.map_append, List.nodup_append]
      refine ⟨hnd, by simp, ?_⟩
      intro x hx hy
      rw [List.mem_map] at hx
      obtain ⟨q, hq, rfl⟩ := hx
      simp only [List.map_cons, List.map_nil, List.mem_singleton, hid] at hy
      exact absurd hy (Nat.ne_of_lt (hbd q hq))
    · intro l hm
      rw [hl, List.mem_append] at hm
      rw [hn]
      rcases hm with hm | hm
      · exact Nat.lt_succ_of_lt (hbd l hm)
      · rw [List.mem_singleton] at hm
        rw [hm, hid]
        exact Nat.lt_succ_self _
  · refine ⟨?_, ?_, ?_⟩
    · rw [hl, List.pairwise_map]
      refine hpw.imp ?_
      intro a b hab
      obtain ⟨_, f2, f3, f4⟩ := flipListed_fields ids a
      obtain ⟨_, g2, g3, g4⟩ := flipListed_fields ids b
      intro ⟨e1, e2, e3⟩
      exact hab ⟨f2 ▸ g2 ▸ e1, f3 ▸ g3 ▸ e2, f4 ▸ g4 ▸ e3⟩
    · rw [hl, List.map_map]
      have hcomp : ((fun l => l.local_id) ∘ flipListed ids) =
          (fun l : LogEntry => l.local_id) := by
        funext l
        exact (flipListed_fields ids l).1
      rw [hcomp]
      exact hnd
    · intro l hm
      rw [hl, List.mem_map] at hm
      obtain ⟨q, hq, rfl⟩ := hm
      rw [hn, (flipListed_fields ids q).1]
      exact hbd q hq
  · refine ⟨?_, ?_, ?_⟩
    · exact hl ▸ hpw.filter _
    · rw [hl]
      exact hnd.sublist ((List.filter_sublist _).map _)
    · intro l hm
      rw [hl, List.mem_filter] at hm
      exact hn ▸ hbd l hm.1

theorem reachable_wf {s : SysState} (h : Reachable s) : logsWellFormed s.cache := by
  induction h with
  | refl =>
    exact ⟨List.Pairwise.nil, List.nodup_nil, by intro l hm; cases hm⟩
  | tail _ hstep ih => exact step_preserves_wf hstep ih

/-! ## Key-based row identity and status monotonicity -/

theorem count_le_one_of_pairwise (l : List LogEntry)
    (h : l.Pairwise tripleDistinct) (sid code d : String) :
    (l.filter (fun x => x.student_id = sid && x.subject_code = code && x.date = d)).length ≤ 1 := by
  induction l with
  | nil => simp
  | cons a as ih =>
    rw [List.pairwise_cons] at h
    by_cases ha : (a.student_id = sid && a.subject_code = code && a.date = d) = true
    · rw [List.filter_cons, if_pos ha]
      have hrest : as.filter (fun x => x.student_id = sid && x.subject_code = code && x.date = d) = [] := by
        rw [List.filter_eq_nil_iff]
        intro b hb hbp
        simp only [Bool.and_eq_true, decide_eq_true_eq] at ha hbp
        exact h.1 b hb ⟨ha.1.1.trans hbp.1.1.symm, ha.1.2.trans hbp.1.2.symm, ha.2.trans hbp.2.symm⟩
      rw [hrest]
      simp
    · rw [List.filter_cons, if_neg ha]
      exact ih h.2

theorem nodupKeys_inj {l : List LogEntry}
    (hnd : (l.map (fun x => x.local_id)).Nodup) {a b : LogEntry}
    (ha : a ∈ l) (hb : b ∈ l) (hid : a.local_id = b.local_id) : a = b :=
  List.inj_on_of_nodup_map hnd ha hb hid

theorem step_status_mono {s s' : SysState} (h : Step s s')
    (hwf : logsWellFormed s.cache) :
    ∀ l ∈ s.cache.logs, ∀ l' ∈ s'.cache.logs, l'.local_id = l.local_id →
      l'.sync_status = l.sync_status ∨
      (l.sync_status = .pending ∧ l'.sync_status = .synced) := by
  obtain ⟨_, hnd, hbd⟩ := hwf
  intro l hl l' hl' hid
  rcases step_cases h with ⟨heq, _⟩ | ⟨nl, heq, _, hnl, _, _⟩ |
    ⟨ids, heq, _, hids⟩ | ⟨d, heq, _⟩
  · rw [heq] at hl'
    rw [nodupKeys_inj hnd hl' hl hid]
    exact Or.inl rfl
  · rw [heq, List.mem_append] at hl'
    rcases hl' with hl' | hl'
    · rw [nodupKeys_inj hnd hl' hl hid]
      exact Or.inl rfl
    · rw [List.mem_singleton] at hl'
      subst hl'
      rw [hnl] at hid
      exact absurd hid.symm (Nat.ne_of_lt (hbd l hl))
  · rw [heq, List.mem_map] at hl'
    obtain ⟨q, hq, rfl⟩ := hl'
    have hqid : q.local_id = l.local_id := (flipListed_fields ids q).1 ▸ hid
    rw [nodupKeys_inj hnd hq hl hqid]
    unfold flipListed
    split
    · rename_i hin
      obtain ⟨p, hp, hpid, hps⟩ := hids _ hin
      rw [nodupKeys_inj hnd hp hl (hqid ▸ hpid)] at hps
      exact Or.inr ⟨hps, rfl⟩
    · exact Or.inl rfl
  · rw [heq, List.mem_filter] at hl'
    rw [nodupKeys_inj hnd hl'.1 hl hid]
    exact Or.inl rfl

theorem step_new_pending {s s' : SysState} (h : Step s s') :
    ∀ l' ∈ s'.cache.logs, (∀ l ∈ s.cache.logs, l.local_id ≠ l'.local_id) →
      l'.sync_status = .pending := by
  intro l' hl' hfresh
  rcases step_cases h with ⟨heq, _⟩ | ⟨nl, heq, _, _, hp, _⟩ |
    ⟨ids, heq, _, _⟩ | ⟨d, heq, _⟩
  · rw [heq] at hl'
    exact absurd rfl (hfresh l' hl')
  · rw [heq, List.mem_append] at hl'
    rcases hl' with hl' | hl'
    · exact absurd rfl (hfresh l' hl')
    · rw [List.mem_singleton] at hl'
      rw [hl']
      exact hp
  · rw [heq, List.mem_map] at hl'
    obtain ⟨q, hq, rfl⟩ := hl'
    exact absurd (flipListed_fields ids q).1.symm (hfresh q hq)
  · rw [heq, List.mem_filter] at hl'
    exact absurd rfl (hfresh l' hl'.1)

theorem synced_persists {s s' : SysState}
    (h : Relation.ReflTransGen Step s s') (id : Nat)
    (hlt : id < s.cache.nextLogId)
    (hall : ∀ l ∈ s.cache.logs, l.local_id = id → l.sync_status = .synced) :
    id < s'.cache.nextLogId ∧
    ∀ l' ∈ s'.cache.logs, l'.local_id = id → l'.sync_status = .synced := by
  induction h with
  | refl => exact ⟨hlt, hall⟩
  | tail _ hstep ih =>
    obtain ⟨ihlt, ihall⟩ := ih
    rcases step_cases hstep with ⟨heq, hn⟩ | ⟨nl, heq, hn, hnl, _, _⟩ |
      ⟨ids, heq, hn, hids⟩ | ⟨d, heq, hn⟩
    · exact ⟨hn ▸ ihlt, fun l' hl' => ihall l' (heq ▸ hl')⟩
    · refine ⟨hn ▸ Nat.lt_succ_of_lt ihlt, ?_⟩
      intro l' hl' hid
      rw [heq, List.mem_append] at hl'
      rcases hl' with hl' | hl'
      · exact ihall l' hl' hid
      · rw [List.mem_singleton] at hl'
        subst hl'
        rw [hnl] at hid
        exact absurd hid (Nat.ne_of_gt ihlt)
    · refine ⟨hn ▸ ihlt, ?_⟩
      intro l' hl' hid
      rw [heq, List.mem_map] at hl'
      obtain ⟨q, hq, rfl⟩ := hl'
      have hqid : q.local_id = id := (flipListed_fields ids q).1 ▸ hid
      have hqs := ihall q hq hqid
      unfold flipListed
      split
      · rfl
      · exact hqs
    · refine ⟨hn ▸ ihlt, ?_⟩
      intro l' hl' hid
      rw [heq, List.mem_filter] at hl'
      exact ihall l' hl'.1 hid

/-! ## Behavioural lemmas for the scan pipeline -/

theorem processAttendance_discard (env : Env) (s : SysState) (uid : String)
    (h1 : s.lastScanned.uid = jsTrim uid)
    (h2 : env.nowTs - s.lastScanned.time < 5000) :
    processAttendance env s uid = (.discarded, s) := by
  unfold processAttendance
  dsimp only
  rw [if_pos ⟨h1, h2⟩]

theorem processAttendance_not_discarded (env : Env) (s : SysState) (uid : String)
    (h : ¬(s.lastScanned.uid = jsTrim uid ∧ env.nowTs - s.lastScanned.time < 5000)) :
    (processAttendance env s uid).1 ≠ .discarded := by
  unfold processAttendance
  dsimp only
  rw [if_neg h]
  repeat' split
  all_goals simp

theorem processAttendance_lastScanned (env : Env) (s : SysState) (uid : String)
    (h : ¬(s.lastScanned.uid = jsTrim uid ∧ env.nowTs - s.lastScanned.time < 5000)) :
    (processAttendance env s uid).2.lastScanned = ⟨jsTrim uid, env.nowTs⟩ := by
  unfold processAttendance
  dsimp only
  rw [if_neg h]
  repeat' split
  all_goals rfl

theorem processAttendance_noClass (env : Env) (s : SysState) (uid : String)
    (stu : Student)
    (hno : ¬(s.lastScanned.uid = jsTrim uid ∧ env.nowTs - s.lastScanned.time < 5000))
    (hstu : findStudent s.cache.students (jsTrim uid) = some stu)
    (hns : ∀ sched ∈ s.cache.schedules, sched.kiosk_id = env.deviceId →
       scheduleActive env.currentDay env.currentTime sched = false) :
    processAttendance env s uid =
      (.noActiveClass env.currentTime, { s with lastScanned := ⟨jsTrim uid, env.nowTs⟩ }) := by
  unfold processAttendance
  dsimp only
  rw [if_neg hno, hstu]
  have hfind : (s.cache.schedules.filter (fun x => x.kiosk_id = env.deviceId)).find?
      (scheduleActive env.currentDay env.currentTime) = none := by
    rw [List.find?_eq_none]
    intro x hx
    rw [List.mem_filter] at hx
    rw [hns x hx.1 (by simpa using hx.2)]
    simp
  rw [hfind]

theorem processAttendance_duplicate (env : Env) (s : SysState) (uid : String)
    (stu : Student) (ac : Schedule) (ex : LogEntry)
    (hno : ¬(s.lastScanned.uid = jsTrim uid ∧ env.nowTs - s.lastScanned.time < 5000))
    (hstu : findStudent s.cache.students (jsTrim uid) = some stu)
    (hac : (s.cache.schedules.filter (fun x => x.kiosk_id = env.deviceId)).find?
       (scheduleActive env.currentDay env.currentTime) = some ac)
    (hen : isEnrolled stu ac.subject_code = true)
    (hex : findLog s.cache.logs stu.student_id ac.subject_code env.today = some ex) :
    processAttendance env s uid =
      (.alreadyPresent ex.timestamp, { s with lastScanned := ⟨jsTrim uid, env.nowTs⟩ }) := by
  unfold processAttendance
  dsimp only
  rw [if_neg hno, hstu, hac]
  dsimp only
  rw [if_neg (show ¬((!isEnrolled stu ac.subject_code) = true) by simp [hen])]
  rw [hex]

theorem processAttendance_proceeds (env : Env) (s : SysState) (uid : String)
    (h : (∃ n, (processAttendance env s uid).1 = .notEnrolled n) ∨
         (∃ t, (processAttendance env s uid).1 = .alreadyPresent t) ∨
         (∃ a b, (processAttendance env s uid).1 = .accepted a b)) :
    ∃ sched ∈ s.cache.schedules, sched.kiosk_id = env.deviceId ∧
      scheduleActive env.currentDay env.currentTime sched = true := by
  unfold processAttendance at h
  dsimp only at h
  split at h
  · rcases h with ⟨n, hn⟩ | ⟨t, ht⟩ | ⟨a, b, hab⟩ <;> simp at *
  · split at h
    · rcases h with ⟨n, hn⟩ | ⟨t, ht⟩ | ⟨a, b, hab⟩ <;> simp at *
    · rename_i stu hstu
      split at h
      · rcases h with ⟨n, hn⟩ | ⟨t, ht⟩ | ⟨a, b, hab⟩ <;> simp at *
      · rename_i ac hac
        have hmem := List.mem_of_find?_eq_some hac
        have hpred := List.find?_some hac
        rw [List.mem_filter] at hmem
        exact ⟨ac, hmem.1, by simpa using hmem.2, hpred⟩

/-! ## bulkPut and descriptor-map lemmas -/

theorem putKeyed_append {α : Type} (key : α → Nat) (acc : List α) (x : α)
    (h : ∀ a ∈ acc, key a ≠ key x) : putKeyed key acc x = acc ++ [x] := by
  unfold putKeyed
  rw [if_neg]
  simp only [List.any_eq_true, decide_eq_true_eq, not_exists, not_and]
  intro a ha
  exact h a ha

theorem bulkPut_append {α : Type} (key : α → Nat) (xs : List α) :
    ∀ acc, (∀ a ∈ acc, ∀ x ∈ xs, key a ≠ key x) → (xs.map key).Nodup →
      bulkPut key acc xs = acc ++ xs := by
  induction xs with
  | nil => intro acc _ _; simp [bulkPut]
  | cons x rest ih =>
    intro acc hdis hnd
    rw [List.map_cons, List.nodup_cons] at hnd
    unfold bulkPut
    rw [List.foldl_cons, putKeyed_append key acc x (fun a ha => hdis a ha x (List.mem_cons_self x rest))]
    have := ih (acc ++ [x]) ?_ hnd.2
    · rw [bulkPut] at this
      rw [this, List.append_assoc]
      rfl
    · intro a ha y hy
      rw [List.mem_append] at ha
      rcases ha with ha | ha
      · exact hdis a ha y (List.mem_cons_of_mem _ hy)
      · rw [List.mem_singleton] at ha
        subst ha
        intro he
        exact hnd.1 (he ▸ List.mem_map_of_mem key hy)

theorem bulkPut_nil {α : Type} (key : α → Nat) (xs : List α)
    (hnd : (xs.map key).Nodup) : bulkPut key [] xs = xs := by
  rw [bulkPut_append key xs [] (by intro a ha; cases ha) hnd]
  rfl

theorem foldl_descriptorStep_stable (sid : String) (l : List Student)
    (h : ∀ t ∈ l, t.student_id = sid → t.descriptor = none) :
    ∀ acc, l.foldl (descriptorStep sid) acc = acc := by
  induction l with
  | nil => intro acc; rfl
  | cons t rest ih =>
    intro acc
    rw [List.foldl_cons]
    have hstep : descriptorStep sid acc t = acc := by
      unfold descriptorStep
      cases hd : t.descriptor with
      | none => rfl
      | some d =>
        dsimp only
        rw [if_neg]
        intro he
        exact absurd (h t (List.mem_cons_self t rest) he) (by rw [hd]; simp)
    rw [hstep]
    exact ih (fun u hu => h u (List.mem_cons_of_mem _ hu)) acc

theorem foldl_descriptorStep_spec (sid : String) (d : Nat) (l : List Student)
    (hall : ∀ t ∈ l, t.student_id = sid → t.descriptor = some d)
    (hex : ∃ t ∈ l, t.student_id = sid) :
    ∀ acc, l.foldl (descriptorStep sid) acc = some d := by
  induction l with
  | nil => exact absurd hex (by simp)
  | cons t rest ih =>
    intro acc
    rw [List.foldl_cons]
    by_cases hm : ∃ u ∈ rest, u.student_id = sid
    · exact ih (fun u hu => hall u (List.mem_cons_of_mem _ hu)) hm _
    · have ht : t.student_id = sid := by
        rcases hex with ⟨u, hu, hus⟩
        rcases List.mem_cons.mp hu with he | hu'
        · exact he ▸ hus
        · exact absurd ⟨u, hu', hus⟩ hm
      have hd : t.descriptor = some d := hall t (List.mem_cons_self t rest) ht
      have hstep : descriptorStep sid acc t = some d := by
        unfold descriptorStep
        rw [hd]
        exact if_pos ht
      rw [hstep]
      exact foldl_descriptorStep_stable sid rest
        (fun u hu hus => absurd ⟨u, hu, hus⟩ hm) (some d)

/-! ## Connection manager (`src/kiosk-server/index.js`) -/

/-- One `SerialPort` object: its requested path and whether it is open. -/
structure SerialHandle where
  path : String
  isOpen : Bool
deriving DecidableEq, Repr

/-- Status values emitted on the `status-update` channel. -/
inductive PortStatus where
  | connected
  | error
  | failed
deriving DecidableEq, Repr

/-- One `status-update` event `{ port, status }`. -/
structure StatusEvent where
  port : String
  status : PortStatus
deriving DecidableEq, Repr

/-- The server's mutable state: the handle the `port` variable references,
the handles that became unreachable after reassignment (a leak would be an
open handle here), the emitted status events, and `currentPortPath`. -/
structure ServerState where
  graveyard : List SerialHandle
  port : Option SerialHandle
  events : List StatusEvent
  currentPortPath : String
deriving DecidableEq, Repr

/-- `if (port && port.isOpen) port.close()`. -/
def closeHandle (h : SerialHandle) : SerialHandle :=
  if h.isOpen then { h with isOpen := false } else h

/-- How one `new SerialPort({ path, baudRate: 9600 })` call can go.
serialport v10 (the `{ SerialPort }` import) auto-opens asynchronously:
* `opens` — the port opens; the `'open'` listener emits status `connected`;
* `ctorThrew` — the constructor itself throws synchronously (e.g. invalid
  options); the `catch` emits status `failed`, and the assignment to the
  `port` variable never executed, so it keeps its previous handle;
* `asyncError` — the constructor returns a port object but the asynchronous
  open fails (missing device, wrong path); the `'error'` listener emits
  status `error`, and `port` references the new, never-opened object. -/
inductive OpenOutcome where
  | opens
  | ctorThrew
  | asyncError
deriving DecidableEq, Repr

/-- `connectToPort(path)`: close the current port if open, record
`currentPortPath`, then attempt `new SerialPort(...)` with the given
outcome. A handle superseded by reassignment moves to the graveyard. -/
def connectToPort (st : ServerState) (path : String) (outcome : OpenOutcome) :
    ServerState :=
  let closedPort := st.port.map closeHandle
  match outcome with
  | .opens =>
    { graveyard := st.graveyard ++ closedPort.toList
      port := some ⟨path, true⟩
      events := st.events ++ [⟨path, .connected⟩]
      currentPortPath := path }
  | .ctorThrew =>
    { st with
        port := closedPort
        events := st.events ++ [⟨path, .failed⟩]
        currentPortPath := path }
  | .asyncError =>
    { graveyard := st.graveyard ++ closedPort.toList
      port := some ⟨path, false⟩
      events := st.events ++ [⟨path, .error⟩]
      currentPortPath := path }

/-- Run a sequence of `connectToPort` calls. -/
def runConnects (st : ServerState) (calls : List (String × OpenOutcome)) :
    ServerState :=
  calls.foldl (fun s c => connectToPort s c.1 c.2) st

/-- All open hardware handles the process still holds, leaked or referenced. -/
def openHandles (st : ServerState) : List SerialHandle :=
  st.graveyard.filter (fun h => h.isOpen) ++ st.port.toList.filter (fun h => h.isOpen)

/-- State at server start, before the initial `connectToPort` call. -/
def initServer : ServerState := ⟨[], none, [], "COM5"⟩

/-- No unreachable handle is still open. -/
def graveyardClosed (st : ServerState) : Prop :=
  ∀ h ∈ st.graveyard, h.isOpen = false

theorem closeHandle_closed (h : SerialHandle) : (closeHandle h).isOpen = false := by
  obtain ⟨p, b⟩ := h
  cases b <;> rfl

theorem closedPort_toList_closed (st : ServerState) :
    ∀ h ∈ (st.port.map closeHandle).toList, h.isOpen = false := by
  intro h hm
  cases hp : st.port with
  | none => rw [hp] at hm; cases hm
  | some p =>
    rw [hp] at hm
    have hm' : h = closeHandle p := List.mem_singleton.mp hm
    rw [hm']
    exact closeHandle_closed p

theorem connectToPort_graveyard {st : ServerState} (path : String)
    (outcome : OpenOutcome) (hg : graveyardClosed st) :
    graveyardClosed (connectToPort st path outcome) := by
  cases outcome with
  | opens =>
    intro h hm
    replace hm : h ∈ st.graveyard ++ (st.port.map closeHandle).toList := hm
    rcases List.mem_append.mp hm with hm | hm
    · exact hg h hm
    · exact closedPort_toList_closed st h hm
  | ctorThrew => exact hg
  | asyncError =>
    intro h hm
    replace hm : h ∈ st.graveyard ++ (st.port.map closeHandle).toList := hm
    rcases List.mem_append.mp hm with hm | hm
    · exact hg h hm
    · exact closedPort_toList_closed st h hm

theorem runConnects_graveyard (calls : List (String × OpenOutcome)) :
    ∀ st, graveyardClosed st → graveyardClosed (runConnects st calls) := by
  induction calls with
  | nil => intro st hg; exact hg
  | cons c rest ih =>
    intro st hg
    exact ih _ (connectToPort_graveyard c.1 c.2 hg)

theorem runConnects_port_success (calls : List (String × OpenOutcome)) :
    ∀ st p, calls.getLast? = some p → (∀ q ∈ calls, q.2 = OpenOutcome.opens) →
      (runConnects st calls).port = some ⟨p.1, true⟩ := by
  induction calls with
  | nil => intro st p hp _; cases hp
  | cons c rest ih =>
    intro st p hp hall
    have hc : c.2 = OpenOutcome.opens := hall c (List.mem_cons_self c rest)
    cases rest with
    | nil =>
      rw [List.getLast?_singleton] at hp
      injection hp with hp
      subst hp
      show (connectToPort st c.1 c.2).port = some ⟨c.1, true⟩
      rw [hc]
      rfl
    | cons r rest' =>
      rw [List.getLast?_cons_cons] at hp
      exact ih _ p hp (fun q hq => hall q (List.mem_cons_of_mem _ hq))

theorem openHandles_of_open_port {st : ServerState} (hg : graveyardClosed st)
    {p : SerialHandle} (hp : st.port = some p) (ho : p.isOpen = true) :
    openHandles st = [p] := by
  unfold openHandles
  rw [hp]
  rw [List.filter_eq_nil_iff.mpr (by intro h hm; simp [hg h hm])]
  simp [ho]

theorem connectToPort_ctorThrew_events (st : ServerState) (path : String) :
    (connectToPort st path .ctorThrew).events = st.events ++ [⟨path, .failed⟩] :=
  rfl

theorem connectToPort_ctorThrew_no_open (st : ServerState) (path : String)
    (hg : graveyardClosed st) :
    openHandles (connectToPort st path .ctorThrew) = [] := by
  have h1 : List.filter (fun h => h.isOpen) st.graveyard = [] := by
    apply List.filter_eq_nil_iff.mpr
    intro h hm
    simp [hg h hm]
  have h2 : List.filter (fun h => h.isOpen) (st.port.map closeHandle).toList = [] := by
    apply List.filter_eq_nil_iff.mpr
    intro h hm
    simp [closedPort_toList_closed st h hm]
  show List.filter (fun h => h.isOpen) st.graveyard ++
      List.filter (fun h => h.isOpen) (st.port.map closeHandle).toList = []
  rw [h1, h2]
  rfl

theorem connectToPort_asyncError_events (st : ServerState) (path : String) :
    (connectToPort st path .asyncError).events = st.events ++ [⟨path, .error⟩] :=
  rfl

theorem connectToPort_asyncError_no_open (st : ServerState) (path : String)
    (hg : graveyardClosed st) :
    openHandles (connectToPort st path .asyncError) = [] := by
  have h1 : List.filter (fun h => h.isOpen)
      (st.graveyard ++ (st.port.map closeHandle).toList) = [] := by
    apply List.filter_eq_nil_iff.mpr
    intro h hm
    rcases List.mem_append.mp hm with hm | hm
    · simp [hg h hm]
    · simp [closedPort_toList_closed st h hm]
  show List.filter (fun h => h.isOpen)
      (st.graveyard ++ (st.port.map closeHandle).toList) ++
      List.filter (fun h => h.isOpen) [(⟨path, false⟩ : SerialHandle)] = []
  rw [h1]
  rfl

/-! ## Push batch-flip lemmas -/

theorem uploadLogs_error_id (c : Cache) (resp : UpsertResponse)
    (he : resp.error = true) : uploadLogs true resp c = c := by
  unfold uploadLogs
  rw [if_neg (by simp)]
  dsimp only
  by_cases hp : (c.logs.filter (fun l => l.sync_status = SyncStatus.pending)).isEmpty = true
  · rw [if_pos hp]
  · rw [if_neg hp, if_pos he]

theorem uploadLogs_ignores_confirmed (c : Cache) (r1 r2 : UpsertResponse)
    (he : r1.error = r2.error) : uploadLogs true r1 c = uploadLogs true r2 c := by
  unfold uploadLogs
  rw [he]

theorem uploadLogs_success_flips_batch (c : Cache) (resp : UpsertResponse)
    (hnd : (c.logs.map (fun l => l.local_id)).Nodup) (he : resp.error = false) :
    (uploadLogs true resp c).logs =
      c.logs.map (fun l =>
        if l.sync_status = SyncStatus.pending then { l with sync_status := .synced } else l) := by
  unfold uploadLogs
  rw [if_neg (by simp)]
  dsimp only
  by_cases hp : (c.logs.filter (fun l => l.sync_status = SyncStatus.pending)).isEmpty = true
  · rw [if_pos hp]
    rw [List.isEmpty_iff, List.filter_eq_nil_iff] at hp
    have hcong : ∀ l ∈ c.logs,
        (if l.sync_status = SyncStatus.pending then
          { l with sync_status := SyncStatus.synced } else l) = l := by
      intro l hl
      rw [if_neg]
      have := hp l hl
      simpa using this
    rw [List.map_congr_left hcong]
    simp
  · rw [if_neg hp, if_neg (by simp [he])]
    dsimp only
    apply List.map_congr_left
    intro l hl
    unfold flipListed
    by_cases hpl : l.sync_status = SyncStatus.pending
    · rw [if_pos ?_, if_pos hpl]
      rw [List.mem_map]
      exact ⟨l, List.mem_filter.mpr ⟨hl, by simpa using hpl⟩, rfl⟩
    · rw [if_neg ?_, if_neg hpl]
      rw [List.mem_map]
      rintro ⟨q, hq, hqid⟩
      rw [List.mem_filter] at hq
      have : q = l := nodupKeys_inj hnd hq.1 hl hqid
      rw [this] at hq
      exact hpl (by simpa using hq.2)

/-! ## Concrete scenario used by the witnesses (spec Scenario A) -/

/-- A registered identity: tag `AA11`, enrolled in `CS101` and `MATH2`. -/
def stuW : Student := ⟨1, "S1", "AA11", "Alice A", "CS101, MATH2", "", none⟩

/-- `CS101` on Mon/Wed, 08:00–09:00, bound to kiosk 7. -/
def schW : Schedule := ⟨1, "CS101", "Intro CS", "08:00:00", "09:00:00", some ["Mon", "Wed"], 7⟩

/-- Monday 08:30 on kiosk 7. -/
def envW : Env := ⟨1000000, "2024-01-01T08:30:00.000Z", "08:30", "Mon", "2024-01-01", 7⟩

/-- A successful pull returning the one student and the one schedule. -/
def fetchW : FetchOutcome := .returned (some [stuW]) (some [schW])

/-- The state after that pull. -/
def stateW : SysState := ⟨downloadDataToLocal true fetchW initState.cache, initState.lastScanned⟩

/-- The state after scanning `AA11` at 08:30: one pending log row exists. -/
def stateW2 : SysState := (processAttendance envW stateW "AA11").2

/-- The row the accepted scan committed. -/
def logW : LogEntry :=
  ⟨1, "S1", "Alice A", "CS101", 7, "2024-01-01", "2024-01-01T08:30:00.000Z", "present", .pending⟩

/-- Six seconds after the first scan (outside the rate-limit window). -/
def envW2 : Env := ⟨1006000, "2024-01-01T08:30:06.000Z", "08:30", "Mon", "2024-01-01", 7⟩

/-- Three seconds after the first scan (inside the rate-limit window). -/
def envW3 : Env := ⟨1003000, "2024-01-01T08:30:03.000Z", "08:30", "Mon", "2024-01-01", 7⟩

/-- Monday 09:30: no schedule interval contains this time. -/
def envWn : Env := ⟨2000000, "2024-01-01T09:30:00.000Z", "09:30", "Mon", "2024-01-01", 7⟩

/-- A push response with no error. -/
def respW : UpsertResponse := ⟨false, [1]⟩

/-- The state after pushing the pending row: it is now synced. -/
def stateW3 : SysState := ⟨uploadLogs true respW stateW2.cache, stateW2.lastScanned⟩

theorem stateW_reachable : Reachable stateW :=
  Relation.ReflTransGen.single (Step.pull true fetchW initState)

theorem stateW2_reachable : Reachable stateW2 :=
  stateW_reachable.tail (Step.scan envW "AA11" stateW)

theorem stateW3_reachable : Reachable stateW3 :=
  stateW2_reachable.tail (Step.push true respW stateW2)

/-! ## Claim theorems -/

/-- C1: in every reachable state of the local cache at most one attendance
log row exists per (externalId, courseCode, date) triple — including under
any number of repeated scans — and a scan whose triple already has a row
terminates in AlreadyPresent (with the existing row's timestamp) before the
Commit step, leaving the cache unchanged. -/
theorem claim_C1_at_most_one_log_per_triple :
    (∀ s : SysState, Reachable s → ∀ sid code d,
       (s.cache.logs.filter (fun x =>
          x.student_id = sid && x.subject_code = code && x.date = d)).length ≤ 1) ∧
    (∀ env s uid stu ac ex,
       ¬(s.lastScanned.uid = jsTrim uid ∧ env.nowTs - s.lastScanned.time < 5000) →
       findStudent s.cache.students (jsTrim uid) = some stu →
       (s.cache.schedules.filter (fun x => x.kiosk_id = env.deviceId)).find?
         (scheduleActive env.currentDay env.currentTime) = some ac →
       isEnrolled stu ac.subject_code = true →
       findLog s.cache.logs stu.student_id ac.subject_code env.today = some ex →
       processAttendance env s uid =
         (.alreadyPresent ex.timestamp,
          { s with lastScanned := ⟨jsTrim uid, env.nowTs⟩ })) :=
  ⟨fun _ hr sid code d => count_le_one_of_pairwise _ (reachable_wf hr).1 sid code d,
   fun env s uid stu ac ex hno hstu hac hen hex =>
     processAttendance_duplicate env s uid stu ac ex hno hstu hac hen hex⟩

theorem claim_C1_witness :
    (stateW2.cache.logs.filter (fun x =>
       x.student_id = "S1" && x.subject_code = "CS101" && x.date = "2024-01-01")).length ≤ 1 ∧
    processAttendance envW2 stateW2 "AA11" =
      (.alreadyPresent logW.timestamp,
       { stateW2 with lastScanned := ⟨jsTrim "AA11", envW2.nowTs⟩ }) :=
  ⟨claim_C1_at_most_one_log_per_triple.1 stateW2 stateW2_reachable "S1" "CS101" "2024-01-01",
   claim_C1_at_most_one_log_per_triple.2 envW2 stateW2 "AA11" stuW schW logW
     (by decide) (by decide) (by decide) (by decide) (by decide)⟩

/-- C2: evidence for the claim about failed pulls. A pull whose fetch throws
leaves the whole cache untouched, but a fetch that resolves to an error
result (`data: null` for both collections, no exception) still runs the
clearing transaction with nothing to re-insert: both mirror collections end
up empty, contradicting the claim that they are left exactly as they were. -/
theorem claim_C2_pull_failure_behavior :
    (∀ online c, downloadDataToLocal online .threw c = c) ∧
    (∀ c, (downloadDataToLocal true (.returned none none) c).students = [] ∧
          (downloadDataToLocal true (.returned none none) c).schedules = [] ∧
          (downloadDataToLocal true (.returned none none) c).logs = c.logs) := by
  constructor
  · intro online c
    unfold downloadDataToLocal
    by_cases ho : (!online) = true
    · rw [if_pos ho]
    · rw [if_neg ho]
  · intro c
    exact ⟨rfl, rfl, rfl⟩

/-- The two pending rows and the response used to refute the partial-flip
half of the Push claim: the response confirms only the row with key 1. -/
def cacheC3 : Cache :=
  ⟨[], [],
   [⟨1, "S1", "n1", "CS101", 7, "2024-01-01", "t1", "present", .pending⟩,
    ⟨2, "S2", "n2", "CS101", 7, "2024-01-01", "t2", "present", .pending⟩], 3⟩

/-- A non-error response confirming only local key 1. -/
def respC3 : UpsertResponse := ⟨false, [1]⟩

/-- C3 (counterexample): with two selected pending rows and a response that
confirms only the row with key 1, the code still flips the row with key 2 to
synced — so it is false that only the rows confirmed by the response are
flipped and never the whole selected batch. -/
theorem claim_C3_counterexample :
    (2 : Nat) ∉ respC3.confirmed ∧
    ((uploadLogs true respC3 cacheC3).logs.find? (fun l => l.local_id = 2)).map
      (fun l => l.sync_status) = some SyncStatus.synced := by
  decide

/-- C3 (amended): an error response leaves every selected row pending
(cache unchanged); the row-confirmation content of the response is ignored
entirely; and on any non-error response the whole selected batch — every
pending row — is flipped to synced, with no partial flip. -/
theorem claim_C3_push_batch :
    (∀ c resp, resp.error = true → uploadLogs true resp c = c) ∧
    (∀ c r1 r2, r1.error = r2.error → uploadLogs true r1 c = uploadLogs true r2 c) ∧
    (∀ c resp, (c.logs.map (fun l => l.local_id)).Nodup → resp.error = false →
       (uploadLogs true resp c).logs =
         c.logs.map (fun l =>
           if l.sync_status = SyncStatus.pending then
             { l with sync_status := .synced } else l)) :=
  ⟨uploadLogs_error_id, uploadLogs_ignores_confirmed, uploadLogs_success_flips_batch⟩

theorem claim_C3_witness :
    uploadLogs true ⟨true, []⟩ cacheC3 = cacheC3 ∧
    (uploadLogs true respC3 cacheC3).logs =
      cacheC3.logs.map (fun l =>
        if l.sync_status = SyncStatus.pending then
          { l with sync_status := .synced } else l) :=
  ⟨claim_C3_push_batch.1 cacheC3 ⟨true, []⟩ rfl,
   claim_C3_push_batch.2.2 cacheC3 respC3 (by decide) rfl⟩

/-- C4: the startup purge retains exactly the log rows dated today — synced
or pending alike — and no other operation ever removes a log row: a scan only
adds rows, a push only rewrites rows in place (same key), and both pull
variants leave the log table untouched. -/
theorem claim_C4_day_rollover_purge :
    (∀ today c, (cleanupDailyLogs today c).logs =
        c.logs.filter (fun l => l.date = today)) ∧
    (∀ today c l, l ∈ c.logs → (l ∈ (cleanupDailyLogs today c).logs ↔ l.date = today)) ∧
    (∀ env s uid, ∀ l ∈ s.cache.logs, l ∈ (processAttendance env s uid).2.cache.logs) ∧
    (∀ online resp c, ∀ l ∈ c.logs,
        ∃ l' ∈ (uploadLogs online resp c).logs, l'.local_id = l.local_id) ∧
    (∀ online fetch c, (downloadDataToLocal online fetch c).logs = c.logs ∧
        (downloadDataToLocalMerge online fetch c).logs = c.logs) := by
  refine ⟨fun _ _ => rfl, ?_, ?_, ?_, ?_⟩
  · intro today c l hl
    simp [cleanupDailyLogs, List.mem_filter, hl]
  · intro env s uid l hl
    rcases processAttendance_cache_cases env s uid with hc | ⟨_, _, _, _, _, _, _, hc⟩
    · rw [hc]; exact hl
    · rw [hc]; exact List.mem_append_left _ hl
  · intro online resp c l hl
    rcases uploadLogs_cases online resp c with hc | ⟨_, hc⟩
    · exact ⟨l, by rw [hc]; exact hl, rfl⟩
    · refine ⟨flipListed _ l, by rw [hc]; exact List.mem_map_of_mem _ hl,
        (flipListed_fields _ l).1⟩
  · intro online fetch c
    exact ⟨(downloadDataToLocal_logs online fetch c).1,
      (downloadDataToLocalMerge_logs online fetch c).1⟩

theorem claim_C4_witness :
    (logW ∈ (cleanupDailyLogs "2024-01-01" stateW2.cache).logs ↔ logW.date = "2024-01-01") ∧
    logW ∈ (processAttendance envW2 stateW2 "AA11").2.cache.logs ∧
    ∃ l' ∈ (uploadLogs true respW stateW2.cache).logs, l'.local_id = logW.local_id :=
  ⟨claim_C4_day_rollover_purge.2.1 "2024-01-01" stateW2.cache logW (by decide),
   claim_C4_day_rollover_purge.2.2.1 envW2 stateW2 "AA11" logW (by decide),
   claim_C4_day_rollover_purge.2.2.2.1 true respW stateW2.cache logW (by decide)⟩

/-- C5 (counterexample): token `AA11` at t=1000000 was processed, so the
rate-limit reference is (`AA11`, 1000000) in `stateW2`; the identical token
at t=1003000 is discarded and leaves the state — including the reference —
unchanged; the identical token at t=1006000 then arrives 3 seconds after the
immediately preceding token yet is not discarded (6 seconds have passed
since the reference), refuting the claim that the 5-second window is
anchored at the immediately preceding token. -/
theorem claim_C5_counterexample :
    processAttendance envW3 stateW2 "AA11" = (.discarded, stateW2) ∧
    envW2.nowTs - envW3.nowTs < 5000 ∧
    (processAttendance envW2 stateW2 "AA11").1 ≠ ScanResult.discarded := by
  decide

/-- C5 (amended): the rate limit is anchored at the stored reference
`lastScannedRef` — the trimmed token and arrival time of the most recent
scan that itself passed the check: a token identical (after trimming) to the
reference and arriving less than 5 seconds after it is discarded with the
entire state unchanged — validation stops before IdentityLookup, no
rejection is surfaced, no log row is created; any other token proceeds past
the rate limit. A discarded scan does not update the reference, so a burst
of identical tokens is suppressed relative to the burst's first scan, not
each token's immediate predecessor. -/
theorem claim_C5_rate_limit :
    (∀ env s uid, s.lastScanned.uid = jsTrim uid →
       env.nowTs - s.lastScanned.time < 5000 →
       processAttendance env s uid = (.discarded, s)) ∧
    (∀ env s uid,
       ¬(s.lastScanned.uid = jsTrim uid ∧ env.nowTs - s.lastScanned.time < 5000) →
       (processAttendance env s uid).1 ≠ .discarded) :=
  ⟨processAttendance_discard, processAttendance_not_discarded⟩

theorem claim_C5_witness :
    processAttendance envW3 stateW2 "AA11" = (.discarded, stateW2) ∧
    (processAttendance envW2 stateW2 "AA11").1 ≠ .discarded :=
  ⟨claim_C5_rate_limit.1 envW3 stateW2 "AA11" (by decide) (by decide),
   claim_C5_rate_limit.2 envW2 stateW2 "AA11" (by decide)⟩

/-- C6: when the scanned identity exists and no schedule bound to this kiosk
has a day set containing the current weekday and a truncated-to-minutes,
inclusive [start, end] interval containing the current time, the scan ends in
NoActiveClass carrying the current time with the cache unchanged; and any scan
that proceeds past ScheduleMatch did select a schedule of this kiosk
satisfying exactly that predicate. -/
theorem claim_C6_schedule_match :
    (∀ env s uid stu,
       ¬(s.lastScanned.uid = jsTrim uid ∧ env.nowTs - s.lastScanned.time < 5000) →
       findStudent s.cache.students (jsTrim uid) = some stu →
       (∀ sched ∈ s.cache.schedules, sched.kiosk_id = env.deviceId →
          scheduleActive env.currentDay env.currentTime sched = false) →
       processAttendance env s uid =
         (.noActiveClass env.currentTime,
          { s with lastScanned := ⟨jsTrim uid, env.nowTs⟩ })) ∧
    (∀ env s uid,
       ((∃ n, (processAttendance env s uid).1 = .notEnrolled n) ∨
        (∃ t, (processAttendance env s uid).1 = .alreadyPresent t) ∨
        (∃ a b, (processAttendance env s uid).1 = .accepted a b)) →
       ∃ sched ∈ s.cache.schedules, sched.kiosk_id = env.deviceId ∧
         scheduleActive env.currentDay env.currentTime sched = true) :=
  ⟨processAttendance_noClass, processAttendance_proceeds⟩

theorem claim_C6_witness :
    processAttendance envWn stateW "AA11" =
      (.noActiveClass envWn.currentTime,
       { stateW with lastScanned := ⟨jsTrim "AA11", envWn.nowTs⟩ }) ∧
    ∃ sched ∈ stateW.cache.schedules, sched.kiosk_id = envW.deviceId ∧
      scheduleActive envW.currentDay envW.currentTime sched = true :=
  ⟨claim_C6_schedule_match.1 envWn stateW "AA11" stuW (by decide) (by decide) (by decide),
   claim_C6_schedule_match.2 envW stateW "AA11"
     (Or.inr (Or.inr ⟨"Alice A", "Intro CS", by decide⟩))⟩

/-- C7: every log row is created with syncStatus pending; a single operation
either keeps a row's status or flips it pending→synced (the Push flip); and
across any reachable execution a row once synced is never seen pending again. -/
theorem claim_C7_sync_status_monotonic (s s' : SysState) (hr : Reachable s)
    (h : Relation.ReflTransGen Step s s') :
    (∀ l ∈ s.cache.logs, l.sync_status = .synced →
       ∀ l' ∈ s'.cache.logs, l'.local_id = l.local_id → l'.sync_status = .synced) ∧
    (∀ s'', Step s s'' → ∀ l' ∈ s''.cache.logs,
       (∀ l ∈ s.cache.logs, l.local_id ≠ l'.local_id) → l'.sync_status = .pending) ∧
    (∀ s'', Step s s'' → ∀ l ∈ s.cache.logs, ∀ l' ∈ s''.cache.logs,
       l'.local_id = l.local_id →
       l'.sync_status = l.sync_status ∨
       (l.sync_status = .pending ∧ l'.sync_status = .synced)) := by
  obtain ⟨_, hnd, hbd⟩ := reachable_wf hr
  refine ⟨?_, ?_, ?_⟩
  · intro l hl hsync l' hl' hid
    have hall : ∀ q ∈ s.cache.logs, q.local_id = l.local_id → q.sync_status = .synced := by
      intro q hq hqid
      rw [nodupKeys_inj hnd hq hl hqid]
      exact hsync
    exact (synced_persists h l.local_id (hbd l hl) hall).2 l' hl' hid
  · intro s'' hstep
    exact step_new_pending hstep
  · intro s'' hstep
    exact step_status_mono hstep (reachable_wf hr)

theorem claim_C7_witness :
    (∀ l ∈ stateW3.cache.logs, l.sync_status = .synced →
       ∀ l' ∈ stateW3.cache.logs, l'.local_id = l.local_id → l'.sync_status = .synced) ∧
    (∀ s'', Step stateW3 s'' → ∀ l' ∈ s''.cache.logs,
       (∀ l ∈ stateW3.cache.logs, l.local_id ≠ l'.local_id) → l'.sync_status = .pending) ∧
    (∀ s'', Step stateW3 s'' → ∀ l ∈ stateW3.cache.logs, ∀ l' ∈ s''.cache.logs,
       l'.local_id = l.local_id →
       l'.sync_status = l.sync_status ∨
       (l.sync_status = .pending ∧ l'.sync_status = .synced)) :=
  claim_C7_sync_status_monotonic stateW3 stateW3 stateW3_reachable Relation.ReflTransGen.refl

/-- C8: over a successful descriptor-merging pull, the students collection is
replaced by exactly the fetched records merged entry-wise; and a fetched
record whose externalId had a locally computed descriptor keeps that
descriptor while every other field comes from the remote record alone. -/
theorem claim_C8_descriptor_preserved
    (c : Cache) (std : List Student) (schData : Option (List Schedule))
    (r t : Student) (d : Nat)
    (hr : r ∈ std) (hnd : (std.map (fun s => s.id)).Nodup)
    (ht : t ∈ c.students) (hsid : t.student_id = r.student_id)
    (hd : t.descriptor = some d)
    (hall : ∀ u ∈ c.students, u.student_id = r.student_id → u.descriptor = some d) :
    (downloadDataToLocalMerge true (.returned (some std) schData) c).students =
      std.map (mergeStudent c.students) ∧
    mergeStudent c.students r = { r with descriptor := some d } := by
  constructor
  · have hlen : (std.map (mergeStudent c.students)).length > 0 := by
      rw [List.length_map]
      exact List.length_pos_of_mem hr
    have hkeys : (((std.map (mergeStudent c.students))).map (fun s => s.id)).Nodup := by
      rw [List.map_map]
      exact hnd
    unfold downloadDataToLocalMerge
    rw [if_neg (by simp)]
    dsimp only
    rw [if_pos hlen]
    cases schData with
    | none =>
      dsimp only
      exact bulkPut_nil _ _ hkeys
    | some sch =>
      dsimp only
      split
      · exact bulkPut_nil _ _ hkeys
      · exact bulkPut_nil _ _ hkeys
  · have hdesc : descriptorFor c.students r.student_id = some d :=
      foldl_descriptorStep_spec r.student_id d c.students hall ⟨t, ht, hsid⟩ none
    unfold mergeStudent
    rw [hdesc]

/-- The locally cached copy of the student, with a computed descriptor. -/
def stuL : Student := ⟨1, "S1", "AA11", "Alice A", "CS101", "", some 42⟩

/-- The freshly fetched remote record of the same student: updated enrollment
and image, no descriptor. -/
def stuR : Student := ⟨1, "S1", "AA11", "Alice A", "CS101, MATH2", "url", none⟩

/-- A cache holding the local copy. -/
def cacheC8 : Cache := ⟨[stuL], [], [], 1⟩

theorem claim_C8_witness :
    (downloadDataToLocalMerge true (.returned (some [stuR]) none) cacheC8).students =
      [stuR].map (mergeStudent cacheC8.students) ∧
    mergeStudent cacheC8.students stuR = { stuR with descriptor := some 42 } :=
  claim_C8_descriptor_preserved cacheC8 [stuR] none stuR stuL 42
    (by decide) (by decide) (by decide) (by decide) (by decide) (by decide)

/-- C9 (counterexample): for the open failures the claim names — missing
device, wrong path — serialport v10 fails the asynchronous auto-open; the
code's `'error'` listener emits status `error` for that path, and no
`failed` event appears on the channel, refuting the claim that such an open
failure results in a status=failed event. -/
theorem claim_C9_counterexample :
    (connectToPort initServer "/dev/ttyX" OpenOutcome.asyncError).events =
      [⟨"/dev/ttyX", PortStatus.error⟩] ∧
    PortStatus.error ≠ PortStatus.failed := by
  decide

/-- C9 (amended): over any sequence of Connect calls whose opens succeed,
exactly one hardware connection is open afterwards, bound to the most
recently requested path, with every superseded handle closed before being
dropped; an open failure leaves no connection open, raises nothing
(connectToPort is a total state transformer), and the server stays usable —
but the status event depends on the failure path: a synchronous constructor
throw is caught and emits status=failed, while a missing device or wrong
path fails the asynchronous open and the error listener emits status=error;
and no run ever leaks an open handle into the unreachable set. -/
theorem claim_C9_single_connection :
    (∀ calls p, calls.getLast? = some p → (∀ q ∈ calls, q.2 = OpenOutcome.opens) →
       openHandles (runConnects initServer calls) = [⟨p.1, true⟩]) ∧
    (∀ st path, graveyardClosed st →
       openHandles (connectToPort st path .ctorThrew) = [] ∧
       (connectToPort st path .ctorThrew).events = st.events ++ [⟨path, .failed⟩]) ∧
    (∀ st path, graveyardClosed st →
       openHandles (connectToPort st path .asyncError) = [] ∧
       (connectToPort st path .asyncError).events = st.events ++ [⟨path, .error⟩]) ∧
    (∀ calls, graveyardClosed (runConnects initServer calls)) := by
  refine ⟨?_, ?_, ?_, ?_⟩
  · intro calls p hlast hall
    have hg := runConnects_graveyard calls initServer (by intro h hm; cases hm)
    have hport := runConnects_port_success calls initServer p hlast hall
    exact openHandles_of_open_port hg hport rfl
  · intro st path hg
    exact ⟨connectToPort_ctorThrew_no_open st path hg,
      connectToPort_ctorThrew_events st path⟩
  · intro st path hg
    exact ⟨connectToPort_asyncError_no_open st path hg,
      connectToPort_asyncError_events st path⟩
  · intro calls
    exact runConnects_graveyard calls initServer (by intro h hm; cases hm)

/-- Scenario C: connect to ttyX, then to ttyY, both opening successfully. -/
def callsW : List (String × OpenOutcome) :=
  [("/dev/ttyX", .opens), ("/dev/ttyY", .opens)]

/-- The server state after those two successful connects. -/
def serverW : ServerState := runConnects initServer callsW

theorem claim_C9_witness :
    openHandles serverW = [⟨"/dev/ttyY", true⟩] ∧
    openHandles (connectToPort serverW "/dev/ttyZ" .ctorThrew) = [] ∧
    (connectToPort serverW "/dev/ttyZ" .ctorThrew).events =
      serverW.events ++ [⟨"/dev/ttyZ", .failed⟩] ∧
    openHandles (connectToPort serverW "/dev/ttyZ" .asyncError) = [] ∧
    (connectToPort serverW "/dev/ttyZ" .asyncError).events =
      serverW.events ++ [⟨"/dev/ttyZ", PortStatus.error⟩] :=
  ⟨claim_C9_single_connection.1 callsW ("/dev/ttyY", .opens) rfl (by decide),
   (claim_C9_single_connection.2.1 serverW "/dev/ttyZ"
      (claim_C9_single_connection.2.2.2 callsW)).1,
   (claim_C9_single_connection.2.1 serverW "/dev/ttyZ"
      (claim_C9_single_connection.2.2.2 callsW)).2,
   (claim_C9_single_connection.2.2.1 serverW "/dev/ttyZ"
      (claim_C9_single_connection.2.2.2 callsW)).1,
   (claim_C9_single_connection.2.2.1 serverW "/dev/ttyZ"
      (claim_C9_single_connection.2.2.2 callsW)).2⟩

/-- C10: every scan that passes the 5-second identical-token check overwrites
the rate-limit reference with its own trimmed token and arrival time before
any validation step, whatever the outcome; consequently an identical token
arriving within 5 seconds of such a scan — accepted or rejected — is
discarded. -/
theorem claim_C10_rate_limit_reference :
    (∀ env s uid,
       ¬(s.lastScanned.uid = jsTrim uid ∧ env.nowTs - s.lastScanned.time < 5000) →
       (processAttendance env s uid).2.lastScanned = ⟨jsTrim uid, env.nowTs⟩) ∧
    (∀ env env2 s uid uid2,
       ¬(s.lastScanned.uid = jsTrim uid ∧ env.nowTs - s.lastScanned.time < 5000) →
       jsTrim uid2 = jsTrim uid → env2.nowTs - env.nowTs < 5000 →
       processAttendance env2 (processAttendance env s uid).2 uid2 =
         (.discarded, (processAttendance env s uid).2)) := by
  refine ⟨processAttendance_lastScanned, ?_⟩
  intro env env2 s uid uid2 hno htrim hlt
  have hls := processAttendance_lastScanned env s uid hno
  apply processAttendance_discard
  · rw [hls, htrim]
  · rw [hls]
    exact hlt

theorem claim_C10_witness :
    (processAttendance envW stateW "AA11").2.lastScanned = ⟨jsTrim "AA11", envW.nowTs⟩ ∧
    processAttendance envW3 (processAttendance envW stateW "AA11").2 "AA11" =
      (.discarded, (processAttendance envW stateW "AA11").2) :=
  ⟨claim_C10_rate_limit_reference.1 envW stateW "AA11" (by decide),
   claim_C10_rate_limit_reference.2 envW envW3 stateW "AA11" "AA11"
     (by decide) rfl (by decide)⟩

end Kiosk
